import Mathlib

/-!
Verification model of the HLS manifest-rewriting proxy in `run.py`.

Python strings are embedded as `List Char` (`PStr`). Python library
functions used by the program (`str.splitlines`, `str.strip`, `str.lower`,
`str.startswith`, `in`, `urllib.parse.quote`, `urllib.parse.unquote`,
`urllib.parse.urljoin`) are modelled as executable Lean functions over
`PStr`, following their documented CPython semantics. The two Flask routes
`proxy` and `download` become pure functions from the request parameter and
a fetch oracle (one outcome per TLS-verification flag) to an HTTP response
value; the upstream body read `r.text`, the one effectful step inside the
try-blocks of the source, is modelled as an `Except` value carried by the
upstream response.
-/

/-- A Python `str`, embedded as its list of unicode scalar values. -/
abbrev PStr := List Char

/-- Conversion from a Lean string literal to the embedding. -/
def pstr (s : String) : PStr := s.data

/-- Python truthiness of one character being ASCII `A`-`Z`. -/
def isUpperA (c : Char) : Bool := 65 ≤ c.toNat && c.toNat ≤ 90

/-- Model of `str.lower` restricted to ASCII case folding (every character
the program lowercases in the claims is ASCII; CPython agrees there). -/
def toLowerA (c : Char) : Char := if isUpperA c then Char.ofNat (c.toNat + 32) else c

/-- Model of `str.lower`. -/
def pyLower (s : PStr) : PStr := s.map toLowerA

/-- Model of `str.startswith`. -/
def pyStartsWith : PStr → PStr → Bool
  | [], _ => true
  | _ :: _, [] => false
  | p :: ps, c :: cs => (p == c) && pyStartsWith ps cs

/-- Model of `str.endswith`. -/
def pyEndsWith (pat s : PStr) : Bool := pyStartsWith pat.reverse s.reverse

/-- Model of the Python substring test `pat in s`. -/
def pyIn (pat : PStr) : PStr → Bool
  | [] => pyStartsWith pat []
  | c :: rest => pyStartsWith pat (c :: rest) || pyIn pat rest

/-- The whitespace characters of Python `str.strip` / `str.isspace`. -/
def isPySpace (c : Char) : Bool :=
  c = ' ' || c = '\t' || c = '\n' || c = '\x0b' || c = '\x0c' || c = '\r' ||
  c = '\x1c' || c = '\x1d' || c = '\x1e' || c = '\x1f' || c = '\x85' ||
  c = '\xa0' || c = ' ' ||
  (0x2000 ≤ c.toNat && c.toNat ≤ 0x200a) ||
  c = ' ' || c = ' ' || c = ' ' || c = ' ' || c = '　'

/-- Model of `str.strip` with no argument: whitespace removed at both ends. -/
def pyStrip (s : PStr) : PStr :=
  ((s.dropWhile isPySpace).reverse.dropWhile isPySpace).reverse

/-- The line-boundary characters of Python `str.splitlines` (`\r\n` is
consumed as one boundary by `splitlinesGo`). -/
def isLineBreak (c : Char) : Bool :=
  c = '\n' || c = '\r' || c = '\x0b' || c = '\x0c' ||
  c = '\x1c' || c = '\x1d' || c = '\x1e' || c = '\x85' ||
  c = ' ' || c = ' '

/-- Worker for `pySplitlines`: `acc` holds the current line reversed. -/
def splitlinesGo : List Char → List Char → List (List Char)
  | acc, [] => if acc = [] then [] else [acc.reverse]
  | acc, '\r' :: '\n' :: cs => acc.reverse :: splitlinesGo [] cs
  | acc, c :: cs =>
    if isLineBreak c then
      acc.reverse :: splitlinesGo [] cs
    else
      splitlinesGo (c :: acc) cs

/-- Model of `str.splitlines`: a trailing terminator opens no extra line. -/
def pySplitlines (s : PStr) : List PStr := splitlinesGo [] s

/-- Model of `"\n".join(lines)`. -/
def pyJoinNL (lines : List PStr) : PStr := List.intercalate [ '\n' ] lines

/-- The suffix of `s` after its last occurrence of `c` (`s.split(c)[-1]`);
all of `s` when `c` does not occur. -/
def lastAfter (c : Char) (s : PStr) : PStr :=
  (s.reverse.takeWhile (fun x => x != c)).reverse

/-- Model of `s.rsplit(sep, 1)[0]`: everything before the last `sep`, or all
of `s` when `sep` does not occur. -/
def rsplit1Head (sep : Char) (s : PStr) : PStr :=
  if s.contains sep then ((s.reverse.dropWhile (fun x => x != sep)).drop 1).reverse
  else s

/-! ### Percent encoding: `urllib.parse.quote(s, safe='')` and `urllib.parse.unquote`

CPython quotes via the UTF-8 encoding of the string: every byte outside the
always-safe set (ASCII letters, digits, `_`, `.`, `-`, `~`) becomes `%XX`
with uppercase hex digits. `unquote` turns `%XX` escapes back into bytes and
decodes the byte stream as UTF-8. The model lowers literal characters and
escapes to one UTF-8 byte stream and decodes it at the end; it agrees with
CPython on every input whose escapes decode to valid UTF-8, which covers all
inputs this program produces. -/

/-- The UTF-8 bytes of the unicode scalar value `n`. -/
def utf8EncodeNat (n : Nat) : List Nat :=
  if n < 0x80 then [n]
  else if n < 0x800 then [0xc0 + n / 64, 0x80 + n % 64]
  else if n < 0x10000 then [0xe0 + n / 4096, 0x80 + (n / 64) % 64, 0x80 + n % 64]
  else [0xf0 + n / 262144, 0x80 + (n / 4096) % 64, 0x80 + (n / 64) % 64, 0x80 + n % 64]

/-- The UTF-8 byte stream of a Python string (`s.encode()`). -/
def utf8Bytes (s : PStr) : List Nat := s.flatMap (fun c => utf8EncodeNat c.toNat)

/-- Fuelled worker for `utf8Decode`: reads one scalar per step, so fuel equal
to the byte count always suffices. Truncated sequences yield `U+FFFD`. -/
def utf8DecodeF : Nat → List Nat → List Char
  | 0, _ => []
  | _ + 1, [] => []
  | fuel + 1, b :: bs =>
    if b < 0x80 then Char.ofNat b :: utf8DecodeF fuel bs
    else if b < 0xe0 then
      if bs.length < 1 then [Char.ofNat 0xfffd]
      else Char.ofNat ((b - 0xc0) * 64 + (bs.headD 0 - 0x80)) :: utf8DecodeF fuel (bs.drop 1)
    else if b < 0xf0 then
      if bs.length < 2 then [Char.ofNat 0xfffd]
      else Char.ofNat ((b - 0xe0) * 4096 + (bs.headD 0 - 0x80) * 64 + ((bs.drop 1).headD 0 - 0x80))
        :: utf8DecodeF fuel (bs.drop 2)
    else
      if bs.length < 3 then [Char.ofNat 0xfffd]
      else Char.ofNat ((b - 0xf0) * 262144 + (bs.headD 0 - 0x80) * 4096 +
          ((bs.drop 1).headD 0 - 0x80) * 64 + ((bs.drop 2).headD 0 - 0x80))
        :: utf8DecodeF fuel (bs.drop 3)

/-- UTF-8 decoding of a byte stream, specified on well-formed encodings (as
produced by `utf8Bytes`); on those it agrees with CPython. -/
def utf8Decode (bs : List Nat) : List Char := utf8DecodeF bs.length bs

/-- The bytes `urllib.parse.quote` never escapes: ASCII letters, digits and
`_.-~` (with `safe=''` nothing else is spared). -/
def isSafeByte (b : Nat) : Bool :=
  (48 ≤ b && b ≤ 57) || (65 ≤ b && b ≤ 90) || (97 ≤ b && b ≤ 122) ||
  b == 45 || b == 46 || b == 95 || b == 126

/-- Uppercase hex digit of `n < 16`. -/
def hexUpper (n : Nat) : Char := Char.ofNat (if n < 10 then 48 + n else 55 + n)

/-- How `quote` renders one byte: itself when safe, `%XX` otherwise. -/
def quoteByte (b : Nat) : List Char :=
  if isSafeByte b then [Char.ofNat b] else ['%', hexUpper (b / 16), hexUpper (b % 16)]

/-- Percent-encoding of a byte stream (`urllib.parse.quote_from_bytes` with
an empty safe set). -/
def pyQuoteBytes (bs : List Nat) : PStr := bs.flatMap quoteByte

/-- Model of `urllib.parse.quote(s, safe='')`. -/
def pyQuote (s : PStr) : PStr := pyQuoteBytes (utf8Bytes s)

/-- The value of one hex digit character, if it is one. -/
def hexVal (c : Char) : Option Nat :=
  if 48 ≤ c.toNat && c.toNat ≤ 57 then some (c.toNat - 48)
  else if 65 ≤ c.toNat && c.toNat ≤ 70 then some (c.toNat - 55)
  else if 97 ≤ c.toNat && c.toNat ≤ 102 then some (c.toNat - 87)
  else none

/-- Percent-decoding to a byte stream: `%XX` escapes become single bytes, a
`%` not followed by two hex digits stays literal (as in CPython), every
other character contributes its UTF-8 bytes. -/
def pyUnquoteBytes : List Char → List Nat
  | [] => []
  | '%' :: c1 :: c2 :: rest2 =>
    match hexVal c1, hexVal c2 with
    | some h, some l => (16 * h + l) :: pyUnquoteBytes rest2
    | _, _ => 37 :: pyUnquoteBytes (c1 :: c2 :: rest2)
  | '%' :: rest => 37 :: pyUnquoteBytes rest
  | c :: rest => utf8EncodeNat c.toNat ++ pyUnquoteBytes rest

/-- Model of `urllib.parse.unquote`. -/
def pyUnquote (s : PStr) : PStr := utf8Decode (pyUnquoteBytes s)

/-! ### `urllib.parse.urljoin`

Modelled after CPython `urlsplit` / `urlunsplit` / `urljoin` for the URL
shapes this relay resolves (playlist lines against an `http(s)` base).
Parameter (`;`) splitting of `urlparse` is not modelled: it never changes
the result for these schemes unless a path segment carries `;`. -/

/-- ASCII letter test, as CPython scheme parsing uses it. -/
def isAsciiAlpha (c : Char) : Bool :=
  (65 ≤ c.toNat && c.toNat ≤ 90) || (97 ≤ c.toNat && c.toNat ≤ 122)

/-- ASCII digit test. -/
def isAsciiDigit (c : Char) : Bool := 48 ≤ c.toNat && c.toNat ≤ 57

/-- The characters allowed after the first one of a URL scheme. -/
def isSchemeChar (c : Char) : Bool :=
  isAsciiAlpha c || isAsciiDigit c || c = '+' || c = '-' || c = '.'

/-- The five components `urlsplit` produces. -/
structure SplitResult where
  scheme : PStr
  netloc : PStr
  path : PStr
  query : PStr
  fragment : PStr
deriving Repr, DecidableEq

/-- Leading `scheme:` of a URL, when well formed: `(lowercased scheme, rest)`;
otherwise `([], url)`. -/
def splitScheme (url : PStr) : PStr × PStr :=
  let pre := url.takeWhile (fun c => c != ':')
  if pre.length < url.length &&
      (match pre with
        | c :: cs => isAsciiAlpha c && cs.all isSchemeChar
        | [] => false) then
    (pyLower pre, url.drop (pre.length + 1))
  else ([], url)

/-- Model of `urllib.parse.urlsplit` (with CPython WHATWG sanitisation:
surrounding C0-control-or-space characters stripped, tab/CR/LF removed). -/
def urlsplit (url : PStr) : SplitResult :=
  let url := ((url.dropWhile (fun c => c.toNat ≤ 0x20)).reverse.dropWhile
    (fun c => c.toNat ≤ 0x20)).reverse
  let url := url.filter (fun c => !(c = '\t' || c = '\r' || c = '\n'))
  let (scheme, rest) := splitScheme url
  let (netloc, rest) :=
    if pyStartsWith (pstr "//") rest then
      ((rest.drop 2).takeWhile (fun c => !(c = '/' || c = '?' || c = '#')),
       (rest.drop 2).dropWhile (fun c => !(c = '/' || c = '?' || c = '#')))
    else ([], rest)
  let pathq := rest.takeWhile (fun c => c != '#')
  let fragment := (rest.dropWhile (fun c => c != '#')).drop 1
  let path := pathq.takeWhile (fun c => c != '?')
  let query := (pathq.dropWhile (fun c => c != '?')).drop 1
  ⟨scheme, netloc, path, query, fragment⟩

/-- CPython `uses_netloc`: schemes whose URLs carry a network location. -/
def usesNetloc : List PStr :=
  [pstr "", pstr "ftp", pstr "http", pstr "gopher", pstr "nntp", pstr "telnet",
   pstr "imap", pstr "wais", pstr "file", pstr "mms", pstr "https", pstr "shttp",
   pstr "snews", pstr "prospero", pstr "rtsp", pstr "rtspu", pstr "rsync",
   pstr "svn", pstr "svn+ssh", pstr "sftp", pstr "nfs", pstr "git",
   pstr "git+ssh", pstr "ws", pstr "wss", pstr "itms-services"]

/-- Model of `urllib.parse.urlunsplit` (CPython 3.11). -/
def urlunsplit (p : SplitResult) : PStr :=
  let url := p.path
  let url :=
    if p.netloc ≠ [] ∨
        (p.scheme ≠ [] ∧ usesNetloc.contains p.scheme
          ∧ ¬ pyStartsWith (pstr "//") url = true) then
      pstr "//" ++ p.netloc ++
        (if url ≠ [] ∧ ¬ pyStartsWith (pstr "/") url = true then '/' :: url else url)
    else url
  let url := if p.scheme ≠ [] then p.scheme ++ ':' :: url else url
  let url := if p.query ≠ [] then url ++ '?' :: p.query else url
  if p.fragment ≠ [] then url ++ '#' :: p.fragment else url

/-- CPython `uses_relative`: schemes that may absorb relative references. -/
def usesRelative : List PStr :=
  [pstr "", pstr "ftp", pstr "http", pstr "gopher", pstr "nntp", pstr "imap",
   pstr "wais", pstr "file", pstr "https", pstr "shttp", pstr "mms",
   pstr "prospero", pstr "rtsp", pstr "rtspu", pstr "sftp", pstr "svn",
   pstr "svn+ssh", pstr "ws", pstr "wss"]

/-- CPython urljoin: keep the first and last element, drop empty strings
strictly inside (`segments[1:-1] = filter(None, segments[1:-1])`). -/
def filterMiddle (l : List PStr) : List PStr :=
  match l with
  | [] => []
  | x :: rest =>
    match rest.reverse with
    | [] => [x]
    | last :: midRev => x :: (midRev.reverse.filter (fun s => !s.isEmpty)) ++ [last]

/-- CPython urljoin segment resolution: `..` pops (silently on empty), `.`
is skipped, everything else is appended. -/
def resolveSegments (segs : List PStr) : List PStr :=
  segs.foldl (fun acc seg =>
    if seg = pstr ".." then acc.dropLast
    else if seg = pstr "." then acc
    else acc ++ [seg]) []

/-- Model of `urllib.parse.urljoin`. -/
def urljoin (base url : PStr) : PStr :=
  if base = [] then url
  else if url = [] then base
  else
    let b := urlsplit base
    let u := urlsplit url
    let scheme := if u.scheme = [] then b.scheme else u.scheme
    if scheme ≠ b.scheme then url
    else if ¬ usesRelative.contains scheme then url
    else if usesNetloc.contains scheme ∧ u.netloc ≠ [] then
      urlunsplit ⟨scheme, u.netloc, u.path, u.query, u.fragment⟩
    else
      let netloc := if usesNetloc.contains scheme then b.netloc else u.netloc
      if u.path = [] then
        urlunsplit ⟨scheme, netloc, b.path,
          (if u.query = [] then b.query else u.query), u.fragment⟩
      else
        let segments :=
          if pyStartsWith (pstr "/") u.path then List.splitOn '/' u.path
          else
            let baseParts := List.splitOn '/' b.path
            let baseParts :=
              if baseParts.getLast? = some [] then baseParts else baseParts.dropLast
            filterMiddle (baseParts ++ List.splitOn '/' u.path)
        let resolved := resolveSegments segments
        let resolved :=
          if segments.getLast? = some (pstr "..") ∨ segments.getLast? = some (pstr ".")
          then resolved ++ [[]] else resolved
        let path := List.intercalate [ '/' ] resolved
        let path := if path = [] then pstr "/" else path
        urlunsplit ⟨scheme, netloc, path, u.query, u.fragment⟩

/-! ### The program: `run.py` -/

/-- `resolve_absolute(uri, base)` of `run.py`: an already absolute
`http(s)` URI is kept, anything else is joined against the base. -/
def resolve_absolute (uri base : PStr) : PStr :=
  if pyStartsWith (pstr "http://") uri || pyStartsWith (pstr "https://") uri then uri
  else urljoin base uri

/-- The scheme-upgrade step (`run.py` lines 79-80 and 128-129): an `http://`
URL becomes `https://` with the rest unchanged. -/
def upgradeScheme (s : PStr) : PStr :=
  if pyStartsWith (pstr "http://") s then pstr "https://" ++ s.drop 7 else s

/-- The rewritten form of one non-comment, non-empty playlist line
(`run.py` lines 77-81): strip, resolve, upgrade scheme, embed
percent-encoded (empty safe set) into a `/proxy?u=` reference. -/
def rewriteLine (base ln : PStr) : PStr :=
  pstr "/proxy?u=" ++ pyQuote (upgradeScheme (resolve_absolute (pyStrip ln) base))

/-- The rewrite loop of `run.py` lines 73-82: empty lines and lines starting
with `#` pass through, every other line is rewritten. -/
def rewriteLines (base : PStr) : List PStr → List PStr
  | [] => []
  | ln :: rest =>
    (if ln = [] || pyStartsWith (pstr "#") ln then ln else rewriteLine base ln)
      :: rewriteLines base rest

/-- The base URL of `run.py` line 71 (`target.rsplit("/", 1)[0] + "/"`). -/
def baseOf (target : PStr) : PStr := rsplit1Head '/' target ++ [ '/' ]

/-- The whole manifest rewrite (`run.py` lines 71-83): split into lines,
rewrite each, rejoin with `\n`. -/
def rewriteManifest (target text : PStr) : PStr :=
  pyJoinNL (rewriteLines (baseOf target) (pySplitlines text))

/-- The playlist classification of `run.py` lines 68 and 118: `ct` is the
already lowercased content type. -/
def isPlaylist (target ct : PStr) : Bool :=
  pyEndsWith (pstr ".m3u8") (pyLower target) || pyIn (pstr "mpegurl") ct ||
  pyIn (pstr "application/vnd.apple.mpegurl") ct

/-- An upstream response handle as the routes use it: status code, the
`Content-Type` header if present, and the outcome of reading `r.text`.
Reading the body is the effectful step inside the try-blocks of `run.py`; a
raised exception there is the `Except.error` case. -/
structure Upstream where
  status : Nat
  contentType : Option PStr
  textResult : Except Unit PStr
deriving Repr

/-- A response body: materialised text, or the streamed upstream byte
iterator (`r.iter_content(chunk_size=8192)`) passed through untouched. -/
inductive RBody
  | text (s : PStr)
  | stream
deriving Repr, DecidableEq

/-- A Flask response value: status, body, headers. -/
structure HttpResponse where
  status : Nat
  body : RBody
  headers : List (PStr × PStr)
deriving Repr, DecidableEq

/-- The verify-then-retry-without-verify fetch of `run.py` (lines 59-63 and
108-112). `fetch b` is the outcome `forward_request(..., verify=b)` would
have. Returns the response, if any, together with the trace of verify flags
of the attempts actually made. -/
def fetchWithFallback (fetch : Bool → Option Upstream) : Option Upstream × List Bool :=
  match fetch true with
  | some r => (some r, [true])
  | none =>
    match fetch false with
    | some r => (some r, [true, false])
    | none => (none, [true, false])

/-- The `/proxy` route after a successful fetch (`run.py` lines 65-99). -/
def proxyRespond (target : PStr) (r : Upstream) : HttpResponse :=
  let content_type := pyLower (r.contentType.getD [])
  if isPlaylist target content_type then
    match r.textResult with
    | Except.ok text =>
      { status := 200, body := RBody.text (rewriteManifest target text),
        headers := [(pstr "Content-Type", pstr "application/vnd.apple.mpegurl"),
                    (pstr "Access-Control-Allow-Origin", pstr "*"),
                    (pstr "Cache-Control", pstr "no-cache")] }
    | Except.error _ =>
      { status := 500, body := RBody.text (pstr "Manifest rewrite failed"), headers := [] }
  else
    { status := r.status, body := RBody.stream,
      headers := [(pstr "Content-Type", r.contentType.getD (pstr "application/octet-stream")),
                  (pstr "Access-Control-Allow-Origin", pstr "*"),
                  (pstr "Cache-Control", pstr "no-cache")] }

/-- The `/proxy` route (`run.py` lines 49-99). `uParam` is the raw `u` query
parameter; the cookie and `header_X` parameters only shape the outbound
request, which the fetch oracle already abstracts. -/
def proxy (uParam : Option PStr) (fetch : Bool → Option Upstream) : HttpResponse :=
  match uParam with
  | none =>
    { status := 400, body := RBody.text (pstr "Missing url param 'u'"), headers := [] }
  | some u =>
    if u = [] then
      { status := 400, body := RBody.text (pstr "Missing url param 'u'"), headers := [] }
    else
      let target := pyUnquote u
      match (fetchWithFallback fetch).1 with
      | none => { status := 502, body := RBody.text (pstr "Upstream error"), headers := [] }
      | some r => proxyRespond target r

/-- The attachment filename of `run.py` line 115:
`unquote(target.split("/")[-1].split("?")[0]) or "download"`. -/
def filenameOf (target : PStr) : PStr :=
  let dec := pyUnquote ((lastAfter '/' target).takeWhile (fun x => x != '?'))
  if dec = [] then pstr "download" else dec

/-- The `/download` route (`run.py` lines 102-150). -/
def download (uParam : Option PStr) (fetch : Bool → Option Upstream) : HttpResponse :=
  match uParam with
  | none =>
    { status := 400, body := RBody.text (pstr "Missing url param 'u'"), headers := [] }
  | some u =>
    if u = [] then
      { status := 400, body := RBody.text (pstr "Missing url param 'u'"), headers := [] }
    else
      let target := pyUnquote u
      match (fetchWithFallback fetch).1 with
      | none => { status := 502, body := RBody.text (pstr "Upstream error"), headers := [] }
      | some r =>
        let content_type := pyLower (r.contentType.getD (pstr "application/octet-stream"))
        let filename := filenameOf target
        if isPlaylist target content_type then
          match r.textResult with
          | Except.ok text =>
            { status := 200, body := RBody.text (rewriteManifest target text),
              headers := [(pstr "Content-Type", pstr "application/vnd.apple.mpegurl"),
                          (pstr "Content-Disposition",
                            pstr "attachment; filename=\"" ++ filename ++ [ '"' ]),
                          (pstr "Access-Control-Allow-Origin", pstr "*"),
                          (pstr "Cache-Control", pstr "no-cache")] }
          | Except.error _ =>
            { status := 500, body := RBody.text (pstr "Failed to rewrite manifest"),
              headers := [] }
        else
          { status := r.status, body := RBody.stream,
            headers := [(pstr "Content-Type", content_type),
                        (pstr "Content-Disposition",
                          pstr "attachment; filename=\"" ++ filename ++ [ '"' ]),
                        (pstr "Access-Control-Allow-Origin", pstr "*"),
                        (pstr "Cache-Control", pstr "no-cache")] }

/-! ### Definitions taken from the specification text, for comparison -/

/-- Modelled from the spec (claim C9 wording, `run.py`-independent): the
filename is the last path segment of the target URL with the query string
stripped first, percent-decoded, defaulting to `download` when empty. -/
def specFilename (target : PStr) : PStr :=
  let dec := pyUnquote (lastAfter '/' (target.takeWhile (fun x => x != '?')))
  if dec = [] then pstr "download" else dec

/-- Modelled from the spec (claim C2 wording): playlist iff the target URL
path (not the whole URL) ends in `.m3u8` case-insensitively, or the content
type contains `mpegurl`. -/
def specIsPlaylist (target ct : PStr) : Bool :=
  pyEndsWith (pstr ".m3u8") (pyLower (urlsplit target).path) || pyIn (pstr "mpegurl") ct

/-! ### Round trip of percent encoding -/

theorem toNat_ofNat_lt {n : Nat} (h : n < 0xd800) : (Char.ofNat n).toNat = n := by
  simp [Char.ofNat, Char.toNat, Char.ofNatAux, Nat.isValidChar, h]
  rfl

theorem char_toNat_lt (c : Char) : c.toNat < 0x110000 := by
  have := c.valid
  simp only [UInt32.isValidChar, Nat.isValidChar] at this
  have hv : c.val.toNat = c.toNat := rfl
  omega

theorem utf8EncodeNat_lt_256 {n : Nat} (h : n < 0x110000) :
    ∀ b ∈ utf8EncodeNat n, b < 256 := by
  intro b hb
  unfold utf8EncodeNat at hb
  split at hb
  · simp at hb; omega
  · split at hb
    · simp at hb
      have : n / 64 < 32 := by omega
      rcases hb with h1 | h1 <;> omega
    · split at hb
      · simp at hb
        have : n / 4096 < 16 := by omega
        have h64 : n % 64 < 64 := Nat.mod_lt _ (by omega)
        have h64' : n / 64 % 64 < 64 := Nat.mod_lt _ (by omega)
        rcases hb with h1 | h1 | h1 <;> omega
      · simp at hb
        have : n / 262144 < 5 := by omega
        have h64 : n % 64 < 64 := Nat.mod_lt _ (by omega)
        have h64' : n / 64 % 64 < 64 := Nat.mod_lt _ (by omega)
        have h64'' : n / 4096 % 64 < 64 := Nat.mod_lt _ (by omega)
        rcases hb with h1 | h1 | h1 | h1 <;> omega

theorem utf8Bytes_lt_256 (s : PStr) : ∀ b ∈ utf8Bytes s, b < 256 := by
  intro b hb
  simp only [utf8Bytes, List.mem_flatMap] at hb
  obtain ⟨c, _, hc⟩ := hb
  exact utf8EncodeNat_lt_256 (char_toNat_lt c) b hc

theorem utf8DecodeF_congr (f1 : Nat) : ∀ (f2 : Nat) (bs : List Nat),
    bs.length ≤ f1 → bs.length ≤ f2 → utf8DecodeF f1 bs = utf8DecodeF f2 bs := by
  induction f1 with
  | zero =>
    intro f2 bs h1 _
    have : bs = [] := List.length_eq_zero.mp (by omega)
    subst this
    cases f2 <;> rfl
  | succ g ih =>
    intro f2 bs h1 h2
    cases bs with
    | nil => cases f2 <;> rfl
    | cons b bs' =>
      simp only [List.length_cons] at h1 h2
      cases f2 with
      | zero => omega
      | succ g2 =>
        rw [utf8DecodeF, utf8DecodeF]
        have hd1 : (bs'.drop 1).length ≤ g := by simp; omega
        have hd1' : (bs'.drop 1).length ≤ g2 := by simp; omega
        have hd2 : (bs'.drop 2).length ≤ g := by simp; omega
        have hd2' : (bs'.drop 2).length ≤ g2 := by simp; omega
        have hd3 : (bs'.drop 3).length ≤ g := by simp; omega
        have hd3' : (bs'.drop 3).length ≤ g2 := by simp; omega
        by_cases hb : b < 0x80
        · simp only [if_pos hb]
          rw [ih g2 bs' (by omega) (by omega)]
        · simp only [if_neg hb]
          by_cases hb2 : b < 0xe0
          · simp only [if_pos hb2]
            by_cases hlen : bs'.length < 1
            · simp only [if_pos hlen]
            · simp only [if_neg hlen]
              rw [ih g2 (bs'.drop 1) hd1 hd1']
          · simp only [if_neg hb2]
            by_cases hb3 : b < 0xf0
            · simp only [if_pos hb3]
              by_cases hlen : bs'.length < 2
              · simp only [if_pos hlen]
              · simp only [if_neg hlen]
                rw [ih g2 (bs'.drop 2) hd2 hd2']
            · simp only [if_neg hb3]
              by_cases hlen : bs'.length < 3
              · simp only [if_pos hlen]
              · simp only [if_neg hlen]
                rw [ih g2 (bs'.drop 3) hd3 hd3']

theorem utf8Decode_encode_cons (c : Char) (rest : List Nat) :
    utf8Decode (utf8EncodeNat c.toNat ++ rest) = c :: utf8Decode rest := by
  have hlt : c.toNat < 0x110000 := char_toNat_lt c
  have hofn : Char.ofNat c.toNat = c := Char.ofNat_toNat c
  unfold utf8Decode
  set n := c.toNat with hn
  by_cases h1 : n < 0x80
  · simp only [utf8EncodeNat, if_pos h1, List.cons_append, List.nil_append, List.length_cons]
    rw [utf8DecodeF, if_pos h1, hofn]
  · by_cases h2 : n < 0x800
    · have e1 : ¬ (0xc0 + n / 64 < 0x80) := by omega
      have e2 : 0xc0 + n / 64 < 0xe0 := by
        have : n / 64 < 32 := by omega
        omega
      simp only [utf8EncodeNat, if_neg h1, if_pos h2, List.cons_append, List.nil_append,
        List.length_cons]
      rw [utf8DecodeF, if_neg e1, if_pos e2]
      simp only [List.length_cons, List.headD_cons, List.drop_succ_cons, List.drop_zero]
      rw [if_neg (by omega)]
      have hv : (0xc0 + n / 64 - 0xc0) * 64 + (0x80 + n % 64 - 0x80) = n := by omega
      rw [hv, hofn]
      rw [utf8DecodeF_congr (rest.length + 1) rest.length rest (by omega) (by omega)]
    · by_cases h3 : n < 0x10000
      · have e1 : ¬ (0xe0 + n / 4096 < 0x80) := by omega
        have e2 : ¬ (0xe0 + n / 4096 < 0xe0) := by omega
        have e3 : 0xe0 + n / 4096 < 0xf0 := by
          have : n / 4096 < 16 := by omega
          omega
        simp only [utf8EncodeNat, if_neg h1, if_neg h2, if_pos h3, List.cons_append,
          List.nil_append, List.length_cons]
        rw [utf8DecodeF, if_neg e1, if_neg e2, if_pos e3]
        simp only [List.length_cons, List.headD_cons, List.drop_succ_cons, List.drop_zero]
        rw [if_neg (by omega)]
        have hda : n / 4096 = n / 64 / 64 := by rw [Nat.div_div_eq_div_mul]
        have hv : (0xe0 + n / 4096 - 0xe0) * 4096 + (0x80 + n / 64 % 64 - 0x80) * 64 +
            (0x80 + n % 64 - 0x80) = n := by omega
        rw [hv, hofn]
        rw [utf8DecodeF_congr (rest.length + 1 + 1) rest.length rest (by omega) (by omega)]
      · have e1 : ¬ (0xf0 + n / 262144 < 0x80) := by omega
        have e2 : ¬ (0xf0 + n / 262144 < 0xe0) := by omega
        have e3 : ¬ (0xf0 + n / 262144 < 0xf0) := by omega
        simp only [utf8EncodeNat, if_neg h1, if_neg h2, if_neg h3, List.cons_append,
          List.nil_append, List.length_cons]
        rw [utf8DecodeF, if_neg e1, if_neg e2, if_neg e3]
        simp only [List.length_cons, List.headD_cons, List.drop_succ_cons, List.drop_zero]
        rw [if_neg (by omega)]
        have hda : n / 4096 = n / 64 / 64 := by rw [Nat.div_div_eq_div_mul]
        have hdb : n / 262144 = n / 4096 / 64 := by rw [Nat.div_div_eq_div_mul]
        have hv : (0xf0 + n / 262144 - 0xf0) * 262144 + (0x80 + n / 4096 % 64 - 0x80) * 4096 +
            (0x80 + n / 64 % 64 - 0x80) * 64 + (0x80 + n % 64 - 0x80) = n := by omega
        rw [hv, hofn]
        rw [utf8DecodeF_congr (rest.length + 1 + 1 + 1) rest.length rest (by omega) (by omega)]

theorem utf8Decode_utf8Bytes (s : PStr) : utf8Decode (utf8Bytes s) = s := by
  induction s with
  | nil => rfl
  | cons c cs ih =>
    have : utf8Bytes (c :: cs) = utf8EncodeNat c.toNat ++ utf8Bytes cs := by
      simp [utf8Bytes]
    rw [this, utf8Decode_encode_cons, ih]

theorem hexVal_hexUpper {x : Nat} (h : x < 16) : hexVal (hexUpper x) = some x := by
  interval_cases x <;> decide

theorem isSafeByte_bounds {b : Nat} (h : isSafeByte b = true) : b < 128 ∧ b ≠ 37 := by
  simp only [isSafeByte, Bool.or_eq_true, Bool.and_eq_true, decide_eq_true_eq,
    beq_iff_eq] at h
  omega

theorem pyUnquoteBytes_escape (c1 c2 : Char) (rest : List Char) (h l : Nat)
    (h1 : hexVal c1 = some h) (h2 : hexVal c2 = some l) :
    pyUnquoteBytes ('%' :: c1 :: c2 :: rest) = (16 * h + l) :: pyUnquoteBytes rest := by
  simp [pyUnquoteBytes, h1, h2]

theorem pyUnquoteBytes_other (c : Char) (hc : ¬ c = '%') (rest : List Char) :
    pyUnquoteBytes (c :: rest) = utf8EncodeNat c.toNat ++ pyUnquoteBytes rest := by
  cases rest with
  | nil => simp [pyUnquoteBytes, hc]
  | cons d rest' =>
    cases rest' with
    | nil => simp [pyUnquoteBytes, hc]
    | cons e rest'' => simp [pyUnquoteBytes, hc]

theorem pyUnquoteBytes_quoteByte (b : Nat) (hb : b < 256) (rest : List Char) :
    pyUnquoteBytes (quoteByte b ++ rest) = b :: pyUnquoteBytes rest := by
  by_cases hs : isSafeByte b = true
  · obtain ⟨h128, h37⟩ := isSafeByte_bounds hs
    have ht : (Char.ofNat b).toNat = b := toNat_ofNat_lt (by omega)
    have hc : ¬ (Char.ofNat b) = '%' := by
      intro he
      have : (Char.ofNat b).toNat = 37 := by rw [he]; decide
      omega
    simp only [quoteByte, if_pos hs, List.cons_append, List.nil_append]
    rw [pyUnquoteBytes_other _ hc, ht]
    simp [utf8EncodeNat, h128]
  · simp only [quoteByte, if_neg hs, List.cons_append, List.nil_append]
    rw [pyUnquoteBytes_escape _ _ _ (b / 16) (b % 16)
      (hexVal_hexUpper (by omega)) (hexVal_hexUpper (by omega))]
    congr 1
    omega

theorem pyUnquoteBytes_pyQuoteBytes (bs : List Nat) (h : ∀ b ∈ bs, b < 256) :
    pyUnquoteBytes (pyQuoteBytes bs) = bs := by
  induction bs with
  | nil => rfl
  | cons b bs' ih =>
    have : pyQuoteBytes (b :: bs') = quoteByte b ++ pyQuoteBytes bs' := by
      simp [pyQuoteBytes]
    rw [this, pyUnquoteBytes_quoteByte b (h b (by simp))]
    rw [ih (fun x hx => h x (by simp [hx]))]

theorem pyUnquote_pyQuote (s : PStr) : pyUnquote (pyQuote s) = s := by
  unfold pyUnquote pyQuote
  rw [pyUnquoteBytes_pyQuoteBytes _ (utf8Bytes_lt_256 s), utf8Decode_utf8Bytes]

/-! ### Prefix and substring characterisations -/

theorem pyStartsWith_iff (p : PStr) : ∀ s, pyStartsWith p s = true ↔ ∃ t, s = p ++ t := by
  induction p with
  | nil => intro s; simp [pyStartsWith]
  | cons a p' ih =>
    intro s
    cases s with
    | nil => simp [pyStartsWith]
    | cons b s' =>
      simp only [pyStartsWith, Bool.and_eq_true, beq_iff_eq, ih s', List.cons_append,
        List.cons.injEq]
      constructor
      · rintro ⟨rfl, t, rfl⟩
        exact ⟨t, rfl, rfl⟩
      · rintro ⟨t, rfl, rfl⟩
        exact ⟨rfl, t, rfl⟩

theorem pyStartsWith_append (p t : PStr) : pyStartsWith p (p ++ t) = true :=
  (pyStartsWith_iff p _).mpr ⟨t, rfl⟩

theorem pyIn_iff (pat : PStr) : ∀ s, pyIn pat s = true ↔ ∃ a b, s = a ++ (pat ++ b) := by
  intro s
  induction s with
  | nil =>
    simp only [pyIn, pyStartsWith_iff]
    constructor
    · rintro ⟨t, ht⟩
      exact ⟨[], t, by simpa using ht⟩
    · rintro ⟨a, b, hab⟩
      rw [eq_comm, List.append_eq_nil] at hab
      obtain ⟨rfl, hab⟩ := hab
      rw [List.append_eq_nil] at hab
      obtain ⟨rfl, rfl⟩ := hab
      exact ⟨[], rfl⟩
  | cons c s' ih =>
    simp only [pyIn, Bool.or_eq_true, pyStartsWith_iff, ih]
    constructor
    · rintro (⟨t, ht⟩ | ⟨a, b, rfl⟩)
      · exact ⟨[], t, by simpa using ht⟩
      · exact ⟨c :: a, b, by simp⟩
    · rintro ⟨a, b, hab⟩
      cases a with
      | nil => exact Or.inl ⟨b, by simpa using hab⟩
      | cons x a' =>
        have hx : c = x ∧ s' = a' ++ (pat ++ b) := by simpa using hab
        exact Or.inr ⟨a', b, hx.2⟩

theorem pyIn_mpegurl {ct : PStr} (h : pyIn (pstr "application/vnd.apple.mpegurl") ct = true) :
    pyIn (pstr "mpegurl") ct = true := by
  rw [pyIn_iff] at h ⊢
  obtain ⟨a, b, rfl⟩ := h
  have hd : pstr "application/vnd.apple.mpegurl"
      = pstr "application/vnd.apple." ++ pstr "mpegurl" := by decide
  exact ⟨a ++ pstr "application/vnd.apple.", b, by rw [hd]; simp⟩

theorem isPlaylist_eq (target ct : PStr) :
    isPlaylist target ct
      = (pyEndsWith (pstr ".m3u8") (pyLower target) || pyIn (pstr "mpegurl") ct) := by
  unfold isPlaylist
  cases hm : pyIn (pstr "mpegurl") ct
  · cases ha : pyIn (pstr "application/vnd.apple.mpegurl") ct
    · simp [hm, ha]
    · exact absurd (pyIn_mpegurl ha) (by simp [hm])
  · simp [hm]

/-! ### Helpers for the filename derivation and the rewrite loop -/

theorem takeWhile_append_all {α : Type} (p : α → Bool) (l1 l2 : List α)
    (h : ∀ a ∈ l1, p a = true) :
    (l1 ++ l2).takeWhile p = l1 ++ l2.takeWhile p := by
  induction l1 with
  | nil => simp
  | cons a l1' ih =>
    have ha := h a (List.mem_cons_self a l1')
    simp [List.takeWhile_cons, ha, ih (fun x hx => h x (List.mem_cons_of_mem a hx))]

theorem mem_lastAfter {c : Char} {s : PStr} {x : Char} (h : x ∈ lastAfter c s) : x ∈ s := by
  unfold lastAfter at h
  rw [List.mem_reverse] at h
  have := List.mem_takeWhile_imp h
  have hm : x ∈ s.reverse := List.takeWhile_subset _ h
  exact List.mem_reverse.mp hm

theorem lastAfter_append_all (c : Char) (A B : PStr) (h : ∀ b ∈ B, ¬ b = c) :
    lastAfter c (A ++ B) = lastAfter c A ++ B := by
  unfold lastAfter
  rw [List.reverse_append]
  rw [takeWhile_append_all _ B.reverse A.reverse
    (fun x hx => by simpa using h x (List.mem_reverse.mp hx))]
  rw [List.reverse_append, List.reverse_reverse]

theorem filename_inner_eq (target : PStr)
    (h : ∀ c ∈ target.dropWhile (fun x => x != '?'), ¬ c = '/') :
    (lastAfter '/' target).takeWhile (fun x => x != '?')
      = lastAfter '/' (target.takeWhile (fun x => x != '?')) := by
  have hAB : target.takeWhile (fun x => x != '?') ++ target.dropWhile (fun x => x != '?')
      = target := List.takeWhile_append_dropWhile _ _
  have h1 : lastAfter '/' target
      = lastAfter '/' (target.takeWhile (fun x => x != '?'))
          ++ target.dropWhile (fun x => x != '?') := by
    conv =>
      lhs
      rw [← hAB]
    exact lastAfter_append_all '/' _ _ h
  rw [h1]
  rw [takeWhile_append_all _ _ _
    (fun x hx => List.mem_takeWhile_imp (l := target) (mem_lastAfter hx))]
  have h2 : (target.dropWhile (fun x => x != '?')).takeWhile (fun x => x != '?') = [] := by
    have hh := List.head?_dropWhile_not (fun x => x != '?') target
    cases hB : target.dropWhile (fun x => x != '?') with
    | nil => rfl
    | cons b B' =>
      rw [hB] at hh
      simp only [List.head?_cons] at hh
      rw [List.takeWhile_cons, hh]
      simp
  rw [h2, List.append_nil]

theorem filenameOf_eq_specFilename (target : PStr)
    (h : ∀ c ∈ target.dropWhile (fun x => x != '?'), ¬ c = '/') :
    filenameOf target = specFilename target := by
  unfold filenameOf specFilename
  rw [filename_inner_eq target h]

theorem pyStrip_all_space {ln : PStr} (h : ∀ c ∈ ln, isPySpace c = true) : pyStrip ln = [] := by
  unfold pyStrip
  rw [List.dropWhile_eq_nil_iff.mpr h]
  rfl

theorem urljoin_empty_url {base : PStr} (hb : base ≠ []) : urljoin base [] = base := by
  unfold urljoin
  rw [if_neg hb, if_pos rfl]

theorem resolve_absolute_empty (base : PStr) : resolve_absolute [] base = urljoin base [] := by
  rfl

theorem rewriteLines_length (base : PStr) (l : List PStr) :
    (rewriteLines base l).length = l.length := by
  induction l with
  | nil => rfl
  | cons ln rest ih => simp [rewriteLines, ih]

theorem rewriteLines_get? (base : PStr) (l : List PStr) (i : Nat) :
    (rewriteLines base l).get? i
      = (l.get? i).map
          (fun ln => if ln = [] || pyStartsWith (pstr "#") ln then ln else rewriteLine base ln) := by
  induction l generalizing i with
  | nil => simp [rewriteLines]
  | cons ln rest ih =>
    cases i with
    | zero => simp [rewriteLines]
    | succ j =>
      simp only [rewriteLines, List.get?_cons_succ]
      exact ih j

theorem proxy_fetched (u : PStr) (hu : ¬ u = []) (fetch : Bool → Option Upstream)
    (r : Upstream) (hr : (fetchWithFallback fetch).1 = some r) :
    proxy (some u) fetch = proxyRespond (pyUnquote u) r := by
  simp only [proxy, if_neg hu, hr]

theorem download_fetched (u : PStr) (hu : ¬ u = []) (fetch : Bool → Option Upstream)
    (r : Upstream) (hr : (fetchWithFallback fetch).1 = some r) :
    download (some u) fetch
      = (let target := pyUnquote u
         let content_type := pyLower (r.contentType.getD (pstr "application/octet-stream"))
         let filename := filenameOf target
         if isPlaylist target content_type then
          match r.textResult with
          | Except.ok text =>
            { status := 200, body := RBody.text (rewriteManifest target text),
              headers := [(pstr "Content-Type", pstr "application/vnd.apple.mpegurl"),
                          (pstr "Content-Disposition",
                            pstr "attachment; filename=\"" ++ filename ++ [ '"' ]),
                          (pstr "Access-Control-Allow-Origin", pstr "*"),
                          (pstr "Cache-Control", pstr "no-cache")] }
          | Except.error _ =>
            { status := 500, body := RBody.text (pstr "Failed to rewrite manifest"),
              headers := [] }
         else
          { status := r.status, body := RBody.stream,
            headers := [(pstr "Content-Type", content_type),
                        (pstr "Content-Disposition",
                          pstr "attachment; filename=\"" ++ filename ++ [ '"' ]),
                        (pstr "Access-Control-Allow-Origin", pstr "*"),
                        (pstr "Cache-Control", pstr "no-cache")] } : HttpResponse) := by
  simp only [download, if_neg hu, hr]

/-! ### The claims -/

/-- C1 (corrected): on the spec scenario input, the rewriter does NOT
produce the trailing newline the claim includes: `str.splitlines` drops the
final terminator and `"\n".join` adds none back. -/
theorem c1_counterexample :
    ¬ rewriteManifest (pstr "https://origin.example.com/path/index.m3u8")
        (pstr "#EXTM3U\n#EXT-X-VERSION:3\nseg1.ts\nhttp://cdn.example.com/seg2.ts\n")
      = pstr "#EXTM3U\n#EXT-X-VERSION:3\n/proxy?u=https%3A%2F%2Forigin.example.com%2Fpath%2Fseg1.ts\n/proxy?u=https%3A%2F%2Fcdn.example.com%2Fseg2.ts\n" := by
  decide

/-- C1 (amended): the end-to-end scenario produces exactly the claimed
rewritten playlist WITHOUT a trailing newline, with status 200, and the
same output for CRLF line endings (output joined with LF only). -/
theorem c1_rewrite_scenario :
    (proxy (some (pyQuote (pstr "https://origin.example.com/path/index.m3u8")))
        (fun _ => some ⟨200, some (pstr "application/vnd.apple.mpegurl"),
          Except.ok (pstr "#EXTM3U\n#EXT-X-VERSION:3\nseg1.ts\nhttp://cdn.example.com/seg2.ts\n")⟩)).body
      = RBody.text (pstr "#EXTM3U\n#EXT-X-VERSION:3\n/proxy?u=https%3A%2F%2Forigin.example.com%2Fpath%2Fseg1.ts\n/proxy?u=https%3A%2F%2Fcdn.example.com%2Fseg2.ts") ∧
    (proxy (some (pyQuote (pstr "https://origin.example.com/path/index.m3u8")))
        (fun _ => some ⟨200, some (pstr "application/vnd.apple.mpegurl"),
          Except.ok (pstr "#EXTM3U\n#EXT-X-VERSION:3\nseg1.ts\nhttp://cdn.example.com/seg2.ts\n")⟩)).status
      = 200 ∧
    rewriteManifest (pstr "https://origin.example.com/path/index.m3u8")
        (pstr "#EXTM3U\r\n#EXT-X-VERSION:3\r\nseg1.ts\r\nhttp://cdn.example.com/seg2.ts\r\n")
      = pstr "#EXTM3U\n#EXT-X-VERSION:3\n/proxy?u=https%3A%2F%2Forigin.example.com%2Fpath%2Fseg1.ts\n/proxy?u=https%3A%2F%2Fcdn.example.com%2Fseg2.ts" := by
  refine ⟨by decide, by decide, by decide⟩

/-- C2 (corrected): classification tests the WHOLE decoded target URL
string, not its path, so a `.m3u8` URL carrying a query string is binary
when the content type lacks `mpegurl`; the spec-worded path-based
classifier disagrees with the code there, and the proxy streams instead of
rewriting. -/
theorem c2_counterexample :
    isPlaylist (pstr "https://h/index.m3u8?token=abc") (pstr "video/mp2t") = false ∧
    specIsPlaylist (pstr "https://h/index.m3u8?token=abc") (pstr "video/mp2t") = true ∧
    (proxy (some (pyQuote (pstr "https://h/index.m3u8?token=abc")))
        (fun _ => some ⟨206, some (pstr "video/mp2t"), Except.ok (pstr "#EXTM3U")⟩)).body
      = RBody.stream := by
  refine ⟨by decide, by decide, by decide⟩

/-- C2 (amended): the classification is exactly: the lowercased full target
URL ends in `.m3u8`, or the lowered content type contains `mpegurl` (the
source's third disjunct is redundant). -/
theorem c2_classification (target ct : PStr) :
    isPlaylist target ct
      = (pyEndsWith (pstr ".m3u8") (pyLower target) || pyIn (pstr "mpegurl") ct) :=
  isPlaylist_eq target ct

/-- C3 (confirmed): percent-encoding with the empty safe set round-trips
through percent-decoding, also when read back out of the `/proxy?u=` query
value. -/
theorem c3_roundtrip (s : PStr) :
    pyUnquote (pyQuote s) = s ∧
    pyUnquote ((pstr "/proxy?u=" ++ pyQuote s).drop 9) = s := by
  constructor
  · exact pyUnquote_pyQuote s
  · have h9 : (pstr "/proxy?u=").length = 9 := by decide
    rw [← h9, List.drop_left, pyUnquote_pyQuote]

/-- C4 (confirmed): the scheme-upgrade step turns an `http://` URL into
`https://` with a byte-identical remainder and leaves every other URL
unchanged. -/
theorem c4_scheme_upgrade (s : PStr) :
    (pyStartsWith (pstr "http://") s = true →
      upgradeScheme s = pstr "https://" ++ s.drop 7 ∧
      pyStartsWith (pstr "https://") (upgradeScheme s) = true ∧
      (upgradeScheme s).drop 8 = s.drop 7) ∧
    (pyStartsWith (pstr "http://") s = false → upgradeScheme s = s) := by
  constructor
  · intro h
    have he : upgradeScheme s = pstr "https://" ++ s.drop 7 := by
      unfold upgradeScheme
      rw [if_pos h]
    refine ⟨he, ?_, ?_⟩
    · rw [he]
      exact pyStartsWith_append _ _
    · rw [he]
      have h8 : (pstr "https://").length = 8 := by decide
      rw [← h8, List.drop_left]
  · intro h
    unfold upgradeScheme
    rw [if_neg (by simp [h])]

/-- Witness for C4 at concrete inputs. -/
theorem c4_scheme_upgrade_witness :
    upgradeScheme (pstr "http://cdn.example.com/seg2.ts")
        = pstr "https://" ++ (pstr "http://cdn.example.com/seg2.ts").drop 7 ∧
    upgradeScheme (pstr "https://a/b.ts") = pstr "https://a/b.ts" :=
  ⟨((c4_scheme_upgrade (pstr "http://cdn.example.com/seg2.ts")).1 (by decide)).1,
   (c4_scheme_upgrade (pstr "https://a/b.ts")).2 (by decide)⟩

/-- C5 (confirmed): the rewrite loop is a 1:1 positional map over the lines
of the playlist: same length, pass-through lines unchanged in place, every
other line replaced in place by its single rewritten form. -/
theorem c5_line_frame (base text : PStr) (i : Nat) (ln : PStr)
    (hln : (pySplitlines text).get? i = some ln) :
    (rewriteLines base (pySplitlines text)).length = (pySplitlines text).length ∧
    ((ln = [] ∨ pyStartsWith (pstr "#") ln = true) →
      (rewriteLines base (pySplitlines text)).get? i = some ln) ∧
    (¬ (ln = [] ∨ pyStartsWith (pstr "#") ln = true) →
      (rewriteLines base (pySplitlines text)).get? i = some (rewriteLine base ln)) := by
  refine ⟨rewriteLines_length base _, ?_, ?_⟩
  · intro hpass
    rw [rewriteLines_get?, hln]
    have hc : (ln = [] || pyStartsWith (pstr "#") ln) = true := by
      rcases hpass with h | h
      · simp [h]
      · simp [h]
    simp only [Option.map_some']
    rw [if_pos hc]
  · intro hno
    rw [rewriteLines_get?, hln]
    push_neg at hno
    have hc : (ln = [] || pyStartsWith (pstr "#") ln) = false := by
      simp only [Bool.or_eq_false_iff, decide_eq_false_iff_not]
      exact ⟨hno.1, by simpa using hno.2⟩
    simp only [Option.map_some']
    rw [if_neg (by simp [hc])]

/-- Witness for C5 at a concrete playlist. -/
theorem c5_line_frame_witness :
    (rewriteLines (pstr "https://h/p/") (pySplitlines (pstr "#EXTM3U\nseg.ts"))).length
        = (pySplitlines (pstr "#EXTM3U\nseg.ts")).length ∧
    (rewriteLines (pstr "https://h/p/") (pySplitlines (pstr "#EXTM3U\nseg.ts"))).get? 0
        = some (pstr "#EXTM3U") ∧
    (rewriteLines (pstr "https://h/p/") (pySplitlines (pstr "#EXTM3U\nseg.ts"))).get? 1
        = some (rewriteLine (pstr "https://h/p/") (pstr "seg.ts")) :=
  ⟨(c5_line_frame (pstr "https://h/p/") (pstr "#EXTM3U\nseg.ts") 0 (pstr "#EXTM3U")
      (by decide)).1,
   (c5_line_frame (pstr "https://h/p/") (pstr "#EXTM3U\nseg.ts") 0 (pstr "#EXTM3U")
      (by decide)).2.1 (Or.inr (by decide)),
   (c5_line_frame (pstr "https://h/p/") (pstr "#EXTM3U\nseg.ts") 1 (pstr "seg.ts")
      (by decide)).2.2 (by decide)⟩

/-- C6 (confirmed): when the strict-TLS attempt fails the engine makes
exactly one more attempt, with verification disabled; when that fails too,
both routes answer 502 with the generic upstream-error body and no further
attempt is made. -/
theorem c6_fetch_fallback (u : PStr) (fetch : Bool → Option Upstream)
    (hu : ¬ u = []) (h1 : fetch true = none) :
    (fetchWithFallback fetch).2 = [true, false] ∧
    (fetch false = none →
      (fetchWithFallback fetch).1 = none ∧
      (proxy (some u) fetch).status = 502 ∧
      (proxy (some u) fetch).body = RBody.text (pstr "Upstream error") ∧
      (download (some u) fetch).status = 502 ∧
      (download (some u) fetch).body = RBody.text (pstr "Upstream error")) := by
  constructor
  · cases h2 : fetch false <;> simp [fetchWithFallback, h1, h2]
  · intro h2
    have hf : (fetchWithFallback fetch).1 = none := by
      simp [fetchWithFallback, h1, h2]
    refine ⟨hf, ?_, ?_, ?_, ?_⟩ <;> simp [proxy, download, if_neg hu, hf]

/-- Witness for C6 with an oracle that always fails. -/
theorem c6_fetch_fallback_witness :
    (fetchWithFallback (fun _ => (none : Option Upstream))).2 = [true, false] ∧
    (proxy (some (pstr "x")) (fun _ => none)).status = 502 ∧
    (download (some (pstr "x")) (fun _ => none)).status = 502 :=
  ⟨(c6_fetch_fallback (pstr "x") (fun _ => none) (by decide) rfl).1,
   ((c6_fetch_fallback (pstr "x") (fun _ => none) (by decide) rfl).2 rfl).2.1,
   ((c6_fetch_fallback (pstr "x") (fun _ => none) (by decide) rfl).2 rfl).2.2.2.1⟩

/-- C7 (confirmed): a rewritten playlist is always served with a fresh 200,
whatever the upstream status; a binary resource is streamed through with
the upstream status preserved. -/
theorem c7_status (u : PStr) (fetch : Bool → Option Upstream) (r : Upstream)
    (hu : ¬ u = []) (hr : (fetchWithFallback fetch).1 = some r) :
    (isPlaylist (pyUnquote u) (pyLower (r.contentType.getD [])) = true →
      ∀ t, r.textResult = Except.ok t → (proxy (some u) fetch).status = 200) ∧
    (isPlaylist (pyUnquote u) (pyLower (r.contentType.getD [])) = false →
      (proxy (some u) fetch).status = r.status ∧
      (proxy (some u) fetch).body = RBody.stream) := by
  rw [proxy_fetched u hu fetch r hr]
  constructor
  · intro hp t ht
    simp [proxyRespond, hp, ht]
  · intro hp
    simp [proxyRespond, hp]

/-- Witness for C7: a playlist fetched with upstream 404 relays as 200, a
binary upstream 206 passes through as 206. -/
theorem c7_status_witness :
    (proxy (some (pyQuote (pstr "https://h/a.m3u8")))
        (fun _ => some ⟨404, some (pstr "application/vnd.apple.mpegurl"),
          Except.ok (pstr "#EXTM3U")⟩)).status = 200 ∧
    (proxy (some (pyQuote (pstr "https://h/seg.ts")))
        (fun _ => some ⟨206, some (pstr "video/mp2t"), Except.ok []⟩)).status = 206 ∧
    (proxy (some (pyQuote (pstr "https://h/seg.ts")))
        (fun _ => some ⟨206, some (pstr "video/mp2t"), Except.ok []⟩)).body
      = RBody.stream :=
  ⟨(c7_status (pyQuote (pstr "https://h/a.m3u8"))
      (fun _ => some ⟨404, some (pstr "application/vnd.apple.mpegurl"),
        Except.ok (pstr "#EXTM3U")⟩)
      ⟨404, some (pstr "application/vnd.apple.mpegurl"), Except.ok (pstr "#EXTM3U")⟩
      (by decide) rfl).1 (by decide) (pstr "#EXTM3U") rfl,
   ((c7_status (pyQuote (pstr "https://h/seg.ts"))
      (fun _ => some ⟨206, some (pstr "video/mp2t"), Except.ok []⟩)
      ⟨206, some (pstr "video/mp2t"), Except.ok []⟩
      (by decide) rfl).2 (by decide)).1,
   ((c7_status (pyQuote (pstr "https://h/seg.ts"))
      (fun _ => some ⟨206, some (pstr "video/mp2t"), Except.ok []⟩)
      ⟨206, some (pstr "video/mp2t"), Except.ok []⟩
      (by decide) rfl).2 (by decide)).2⟩

/-- C8 (confirmed): when the body read inside the rewrite try-block raises,
both routes catch it and answer a generic 500; the body is exactly the
generic message, never partially rewritten manifest text. -/
theorem c8_rewrite_exception (u : PStr) (fetch : Bool → Option Upstream) (r : Upstream)
    (hu : ¬ u = []) (hr : (fetchWithFallback fetch).1 = some r)
    (he : r.textResult = Except.error ()) :
    (isPlaylist (pyUnquote u) (pyLower (r.contentType.getD [])) = true →
      (proxy (some u) fetch).status = 500 ∧
      (proxy (some u) fetch).body = RBody.text (pstr "Manifest rewrite failed")) ∧
    (isPlaylist (pyUnquote u)
        (pyLower (r.contentType.getD (pstr "application/octet-stream"))) = true →
      (download (some u) fetch).status = 500 ∧
      (download (some u) fetch).body = RBody.text (pstr "Failed to rewrite manifest")) := by
  constructor
  · intro hp
    rw [proxy_fetched u hu fetch r hr]
    simp [proxyRespond, hp, he]
  · intro hp
    rw [download_fetched u hu fetch r hr]
    simp [hp, he]

/-- Witness for C8 with a body read that raises. -/
theorem c8_rewrite_exception_witness :
    (proxy (some (pyQuote (pstr "https://h/a.m3u8")))
        (fun _ => some ⟨200, some (pstr "application/vnd.apple.mpegurl"),
          Except.error ()⟩)).status = 500 ∧
    (download (some (pyQuote (pstr "https://h/a.m3u8")))
        (fun _ => some ⟨200, some (pstr "application/vnd.apple.mpegurl"),
          Except.error ()⟩)).body = RBody.text (pstr "Failed to rewrite manifest") :=
  ⟨((c8_rewrite_exception (pyQuote (pstr "https://h/a.m3u8"))
      (fun _ => some ⟨200, some (pstr "application/vnd.apple.mpegurl"), Except.error ()⟩)
      ⟨200, some (pstr "application/vnd.apple.mpegurl"), Except.error ()⟩
      (by decide) rfl rfl).1 (by decide)).1,
   ((c8_rewrite_exception (pyQuote (pstr "https://h/a.m3u8"))
      (fun _ => some ⟨200, some (pstr "application/vnd.apple.mpegurl"), Except.error ()⟩)
      ⟨200, some (pstr "application/vnd.apple.mpegurl"), Except.error ()⟩
      (by decide) rfl rfl).2 (by decide)).2⟩

/-- C9 (corrected): the filename derivation splits the WHOLE target URL on
`/` before stripping the query, so a `/` inside the query string shifts the
result: for `https://host/video/a.mp4?x=1/2` the code attaches filename
`2`, not the last path segment `a.mp4` the claim derives. -/
theorem c9_counterexample :
    filenameOf (pstr "https://host/video/a.mp4?x=1/2") = pstr "2" ∧
    specFilename (pstr "https://host/video/a.mp4?x=1/2") = pstr "a.mp4" ∧
    (download (some (pyQuote (pstr "https://host/video/a.mp4?x=1/2")))
        (fun _ => some ⟨200, some (pstr "video/mp4"), Except.ok []⟩)).headers.contains
      (pstr "Content-Disposition", pstr "attachment; filename=\"2\"") = true ∧
    ¬ pstr "2" = pstr "a.mp4" := by
  refine ⟨by decide, by decide, by decide, by decide⟩

/-- C9 (amended): whenever the query string carries no `/`, the attached
filename equals the spec-worded derivation (last path segment, query
stripped first, percent-decoded, default `download`), and the download
route attaches exactly that name; with a `/` in the query the two differ. -/
theorem c9_filename (target : PStr)
    (h : ∀ c ∈ target.dropWhile (fun x => x != '?'), ¬ c = '/') :
    filenameOf target = specFilename target ∧
    ∀ (u : PStr) (fetch : Bool → Option Upstream) (r : Upstream),
      ¬ u = [] → pyUnquote u = target →
      (fetchWithFallback fetch).1 = some r →
      isPlaylist target (pyLower (r.contentType.getD (pstr "application/octet-stream"))) = false →
      (pstr "Content-Disposition",
        pstr "attachment; filename=\"" ++ specFilename target ++ [ '"' ])
          ∈ (download (some u) fetch).headers := by
  have heq := filenameOf_eq_specFilename target h
  refine ⟨heq, ?_⟩
  intro u fetch r hu hut hr hp
  rw [download_fetched u hu fetch r hr]
  simp only [hut, hp, if_neg, Bool.false_eq_true, if_false, heq]
  simp

/-- Witness for C9 at the slash-free-query scenario target. -/
theorem c9_filename_witness :
    filenameOf (pstr "https://host/video/a.mp4?x=1")
        = specFilename (pstr "https://host/video/a.mp4?x=1") ∧
    specFilename (pstr "https://host/video/a.mp4?x=1") = pstr "a.mp4" ∧
    (pstr "Content-Disposition",
      pstr "attachment; filename=\"" ++ specFilename (pstr "https://host/video/a.mp4?x=1") ++ [ '"' ])
        ∈ (download (some (pyQuote (pstr "https://host/video/a.mp4?x=1")))
            (fun _ => some ⟨200, some (pstr "video/mp4"), Except.ok []⟩)).headers :=
  ⟨(c9_filename (pstr "https://host/video/a.mp4?x=1") (by decide)).1,
   by decide,
   (c9_filename (pstr "https://host/video/a.mp4?x=1") (by decide)).2
     (pyQuote (pstr "https://host/video/a.mp4?x=1"))
     (fun _ => some ⟨200, some (pstr "video/mp4"), Except.ok []⟩)
     ⟨200, some (pstr "video/mp4"), Except.ok []⟩
     (by decide) (by decide) rfl (by decide)⟩

/-- C10 (corrected): a whitespace-only line is indeed not passed through,
but the emitted reference encodes the SCHEME-UPGRADED base URL: for an
`http://` target the claimed `/proxy?u=<quote(base)>` is wrong. -/
theorem c10_counterexample :
    rewriteManifest (pstr "http://h/p/x.m3u8") (pstr " ")
      = pstr "/proxy?u=https%3A%2F%2Fh%2Fp%2F" ∧
    ¬ rewriteManifest (pstr "http://h/p/x.m3u8") (pstr " ")
        = pstr "/proxy?u=" ++ pyQuote (baseOf (pstr "http://h/p/x.m3u8")) := by
  refine ⟨by decide, by decide⟩

/-- C10 (amended): a non-empty all-whitespace line is never passed through:
it is trimmed to the empty string, resolved to the base URL itself, and
replaced by `/proxy?u=<percent-encoded scheme-upgraded base URL>`. -/
theorem c10_whitespace_line (base ln : PStr) (hb : ¬ base = []) (hln : ¬ ln = [])
    (hws : ∀ c ∈ ln, isPySpace c = true) :
    rewriteLines base [ln] = [pstr "/proxy?u=" ++ pyQuote (upgradeScheme base)] ∧
    ¬ rewriteLines base [ln] = [ln] := by
  have hstrip : pyStrip ln = [] := pyStrip_all_space hws
  have hhead : ¬ (ln = [] || pyStartsWith (pstr "#") ln) = true := by
    cases ln with
    | nil => exact absurd rfl hln
    | cons c rest =>
      have hc := hws c (List.mem_cons_self c rest)
      have hcn : ¬ '#' = c := by
        intro he
        rw [← he] at hc
        exact absurd hc (by decide)
      have hsw : pyStartsWith (pstr "#") (c :: rest) = false := by
        have hform : pstr "#" = ['#'] := rfl
        rw [hform, pyStartsWith]
        simp [hcn]
      simp [hsw]
  have hres : resolve_absolute (pyStrip ln) base = base := by
    rw [hstrip, resolve_absolute_empty, urljoin_empty_url hb]
  have houtput : rewriteLines base [ln]
      = [pstr "/proxy?u=" ++ pyQuote (upgradeScheme base)] := by
    simp only [rewriteLines]
    rw [if_neg hhead]
    unfold rewriteLine
    rw [hres]
  refine ⟨houtput, ?_⟩
  intro hcontra
  rw [houtput] at hcontra
  have hli : pstr "/proxy?u=" ++ pyQuote (upgradeScheme base) = ln := by
    simpa using hcontra
  cases ln with
  | nil => exact hln rfl
  | cons c rest =>
    have hc := hws c (List.mem_cons_self c rest)
    have hsplit : pstr "/proxy?u=" = '/' :: pstr "proxy?u=" := rfl
    rw [hsplit, List.cons_append] at hli
    have hheadeq : '/' = c := (List.cons.injEq .. ▸ hli).1
    rw [← hheadeq] at hc
    exact absurd hc (by decide)

/-- Witness for C10 at a concrete base and a one-space line. -/
theorem c10_whitespace_line_witness :
    rewriteLines (pstr "https://h/p/") [pstr " "]
        = [pstr "/proxy?u=" ++ pyQuote (upgradeScheme (pstr "https://h/p/"))] ∧
    ¬ rewriteLines (pstr "https://h/p/") [pstr " "] = [pstr " "] :=
  c10_whitespace_line (pstr "https://h/p/") (pstr " ") (by decide) (by decide) (by decide)
